import Mathlib

/-! # finite-logic-poly-optim

A shallow embedding of `src/PolyOptimizer.js` (the tiered dispatcher) and
`src/BlindProxy.js` (the additive aggregation demo), followed by the
properties established about them.

Conventions of the embedding.

* A JavaScript number is a `JSNumber`: a finite value (a rational), one of the
  two infinities, or NaN.  Only `>` and `*` are used by the dispatcher.
* `process.hrtime.bigint()` is the one source of non-determinism in `execute`;
  the value of `durationMs` computed from the two readings is an argument of
  the embedded function.  It is the quotient of a bigint difference by
  `1000000`, hence always finite.
* In `PolyOptimizer.js`, rounding of double-precision arithmetic is not
  modelled: sums and products of finite numbers are exact, `0.1` is the
  rational `1/10`, and `callCount` is a natural number (the counter of the
  source stops growing at `2^53`).  In `BlindProxy.js` the number type and its
  addition are parameters, so nothing is assumed of the arithmetic.
  For finite doubles `d` and `t` the test `d > t * 2` agrees with the exact
  one, since doubling is exact below overflow and overflows to `Infinity`
  only when `2 * t` exceeds every finite double.
* `console.warn` / `console.error` lines are collected in a list, in the order
  in which they are printed.
* A thrown exception is the `Except.error` branch of the returned value; the
  object state reached at the moment of the throw is reported next to it,
  because `this.callCount++` has already happened.
-/

namespace FiniteLogic

/-- A JavaScript number. -/
inductive JSNumber where
  | finite (q : ℚ)
  | posInf
  | negInf
  | nan
  deriving DecidableEq

namespace JSNumber

/-- The JavaScript comparison `a > b`; every comparison with NaN is false. -/
def gt : JSNumber → JSNumber → Bool
  | finite a, finite b => decide (b < a)
  | finite _, negInf => true
  | posInf, finite _ => true
  | posInf, negInf => true
  | _, _ => false

/-- The JavaScript comparison `a <= b`; every comparison with NaN is false. -/
def le : JSNumber → JSNumber → Bool
  | finite a, finite b => decide (a ≤ b)
  | finite _, posInf => true
  | negInf, finite _ => true
  | negInf, negInf => true
  | negInf, posInf => true
  | posInf, posInf => true
  | _, _ => false

/-- The sign of a JavaScript number that is not NaN: `1`, `0` or `-1`. -/
def sign : JSNumber → ℤ
  | finite q => if 0 < q then 1 else if q < 0 then -1 else 0
  | posInf => 1
  | negInf => -1
  | nan => 0

/-- The JavaScript product `a * b`. -/
def mul : JSNumber → JSNumber → JSNumber
  | nan, _ => nan
  | _, nan => nan
  | finite a, finite b => finite (a * b)
  | a, b =>
    if sign a * sign b = 0 then nan
    else if 0 < sign a * sign b then posInf
    else negInf

/-- The predicate "finite and positive". -/
def isFinitePositive : JSNumber → Bool
  | finite q => decide (0 < q)
  | _ => false

end JSNumber

/-- The value `Number.prototype.toFixed(2)` prints: the nearest multiple of
`1/100`, the larger one on a tie. -/
def toFixed2 (x : ℚ) : ℚ := (⌊x * 100 + 1 / 2⌋ : ℤ) / 100

/-- Exceptions raised by the embedded code. -/
inductive JSError where
  | typeError (msg : String)
  deriving DecidableEq

/-- Values passed as `data`: `null`, `undefined`, or an array of integers. -/
inductive JSData where
  | null
  | undefined
  | array (xs : List ℤ)
  deriving DecidableEq

/-- The loop of `highLevelFilter` and of `optimizedKernelFilter`, from index
`i` on, with `result` the accumulator: an element divisible by `7` adds a
tenth of itself.  The remainder of JavaScript takes the sign of the dividend
and the one used here is never negative; both are `0` exactly on the
multiples of `7`. -/
def filterLoop (result : ℚ) : List ℤ → ℚ
  | [] => result
  | x :: xs => filterLoop (if x % 7 = 0 then result + (x : ℚ) * (1 / 10) else result) xs

/-- `highLevelFilter(data)`: reading `data.length` of `null` or `undefined`
throws a `TypeError`. -/
def highLevelFilter : JSData → Except JSError ℚ
  | .null => .error (.typeError "Cannot read properties of null (reading 'length')")
  | .undefined => .error (.typeError "Cannot read properties of undefined (reading 'length')")
  | .array xs => .ok (filterLoop 0 xs)

/-- `optimizedKernelFilter(data)`: the same loop as `highLevelFilter`. -/
def optimizedKernelFilter : JSData → Except JSError ℚ
  | .null => .error (.typeError "Cannot read properties of null (reading 'length')")
  | .undefined => .error (.typeError "Cannot read properties of undefined (reading 'length')")
  | .array xs => .ok (filterLoop 0 xs)

/-- The fields of a `PolyOptimizer` instance. -/
structure PolyOptimizer where
  thresholdMs : JSNumber
  isOptimized : Bool
  callCount : Nat
  deriving DecidableEq

/-- One line written to the console by `execute`. -/
inductive ConsoleEntry where
  /-- The `console.warn` line "JIT Optimization Triggered: Latency ..ms exceeded
  ..ms", with the two interpolated values. -/
  | warnJit (latencyFixed2 : ℚ) (thresholdMs : JSNumber)
  /-- The `console.error` line "De-optimization Triggered: Optimized code is too
  slow.", which interpolates nothing. -/
  | errorDeopt
  deriving DecidableEq

/-- The object `{ result, durationMs, path }` returned by `execute`. -/
structure ExecuteReturn (ρ : Type) where
  result : ρ
  durationMs : ℚ
  path : String

/-- Everything observable after one call of `execute`: the instance fields,
the console lines printed by the call, and the returned object or the
exception thrown. -/
structure ExecuteOutcome (ρ : Type) where
  self : PolyOptimizer
  console : List ConsoleEntry
  ret : Except JSError (ExecuteReturn ρ)

/-- `new PolyOptimizer(thresholdMs)`; the parameter defaults to `5` when it
is omitted.  The constructor body has no `throw`. -/
def PolyOptimizer.new (thresholdMs : Option JSNumber) : Except JSError PolyOptimizer :=
  .ok { thresholdMs := thresholdMs.getD (.finite 5), isOptimized := false, callCount := 0 }

/-- The instance a `new PolyOptimizer(thresholdMs)` expression evaluates to:
the three assignments of the constructor body. -/
def PolyOptimizer.fresh (thresholdMs : Option JSNumber) : PolyOptimizer :=
  { thresholdMs := thresholdMs.getD (.finite 5), isOptimized := false, callCount := 0 }

/-- The string chosen by `this.isOptimized ? 'Optimized' : 'High-Level'`. -/
def pathOf (isOptimized : Bool) : String :=
  if isOptimized then "Optimized" else "High-Level"

/-- The body of `PolyOptimizer.execute`, with the two functions it calls as
parameters (`optimized` for the branch `this.isOptimized`, `highLevel` for the
other one) and with the measured `durationMs` as an argument. -/
def PolyOptimizer.executeWith {δ ρ : Type} (highLevel optimized : δ → Except JSError ρ)
    (self : PolyOptimizer) (data : δ) (durationMs : ℚ) : ExecuteOutcome ρ :=
  -- this.callCount++
  let self1 : PolyOptimizer := { self with callCount := self.callCount + 1 }
  match (if self1.isOptimized then optimized data else highLevel data) with
  | .error e => { self := self1, console := [], ret := .error e }
  | .ok result =>
    if JSNumber.gt (.finite durationMs) self1.thresholdMs && !self1.isOptimized
        && decide (10 < self1.callCount) then
      let self2 : PolyOptimizer := { self1 with isOptimized := true }
      { self := self2
        console := [.warnJit (toFixed2 durationMs) self1.thresholdMs]
        ret := .ok { result := result, durationMs := durationMs, path := pathOf self2.isOptimized } }
    else if self1.isOptimized
        && JSNumber.gt (.finite durationMs) (JSNumber.mul self1.thresholdMs (.finite 2)) then
      let self2 : PolyOptimizer := { self1 with isOptimized := false }
      { self := self2
        console := [.errorDeopt]
        ret := .ok { result := result, durationMs := durationMs, path := pathOf self2.isOptimized } }
    else
      { self := self1
        console := []
        ret := .ok { result := result, durationMs := durationMs, path := pathOf self1.isOptimized } }

/-- `PolyOptimizer.execute(data)` with the measured duration `durationMs`. -/
def PolyOptimizer.execute (self : PolyOptimizer) (data : JSData) (durationMs : ℚ) :
    ExecuteOutcome ℚ :=
  PolyOptimizer.executeWith highLevelFilter optimizedKernelFilter self data durationMs

/-- The instance after a sequence of `execute` calls, each given by its
argument and its measured duration. -/
def runCalls (self : PolyOptimizer) : List (JSData × ℚ) → PolyOptimizer
  | [] => self
  | c :: cs => runCalls (self.execute c.1 c.2).self cs

/-- The number of calls of a sequence that return (do not throw). -/
def successCount (self : PolyOptimizer) : List (JSData × ℚ) → Nat
  | [] => 0
  | c :: cs =>
    (match (self.execute c.1 c.2).ret with
      | .ok _ => 1
      | .error _ => 0) + successCount (self.execute c.1 c.2).self cs

/-- The condition of the first `if` of the profiling step of `execute`,
`durationMs > this.thresholdMs && !this.isOptimized && this.callCount > 10`,
on the fields `self` has when the condition is evaluated (after
`this.callCount++`). -/
def PolyOptimizer.promotionCondition (self : PolyOptimizer) (durationMs : ℚ) : Bool :=
  JSNumber.gt (.finite durationMs) self.thresholdMs && !self.isOptimized
    && decide (10 < self.callCount)

/-- The condition of the `else if` of the profiling step of `execute`,
`this.isOptimized && durationMs > this.thresholdMs * 2`. -/
def PolyOptimizer.demotionCondition (self : PolyOptimizer) (durationMs : ℚ) : Bool :=
  self.isOptimized
    && JSNumber.gt (.finite durationMs) (JSNumber.mul self.thresholdMs (.finite 2))

/-- The instance after the first `n` calls of an unbounded sequence of calls
`execute(data 1)`, `execute(data 2)`, ..., call `k` being measured at
`durationMs k`. -/
def stateAfter (self : PolyOptimizer) (data : ℕ → JSData) (durationMs : ℕ → ℚ) :
    ℕ → PolyOptimizer
  | 0 => self
  | n + 1 => ((stateAfter self data durationMs n).execute (data (n + 1))
      (durationMs (n + 1))).self

/-- What call `n + 1` of the sequence does: `execute(data (n + 1))` on the
instance left by the first `n` calls. -/
def callAfter (self : PolyOptimizer) (data : ℕ → JSData) (durationMs : ℕ → ℚ) (n : ℕ) :
    ExecuteOutcome ℚ :=
  (stateAfter self data durationMs n).execute (data (n + 1)) (durationMs (n + 1))

/-! ### `src/BlindProxy.js`

The values stored in `_aggregate` are of an arbitrary type `ν` and the `+` of
the source is an arbitrary operation `add` on it: nothing is assumed of the
arithmetic (IEEE doubles with their rounding, `NaN` and the infinities are one
instance, exact numbers another). -/

/-- An object handled by the proxy.  `encryptData` builds
`{ ciphertext, _aggregate }` and `homomorphicAdd` builds
`{ _type, _aggregate }`; a property the object does not have is `none`. -/
structure CipherObject (ν : Type) where
  ciphertext : Option String
  _type : Option String
  _aggregate : ν
  deriving DecidableEq

/-- A value found where the proxy expects an object: `null`, `undefined`, or
an object. -/
inductive JSValue (ν : Type) where
  | null
  | undefined
  | object (o : CipherObject ν)
  deriving DecidableEq

/-- The property read `x._aggregate`: a `TypeError` on `null` and on
`undefined`. -/
def JSValue.aggregate {ν : Type} : JSValue ν → Except JSError ν
  | .null => .error (.typeError "Cannot read properties of null (reading '_aggregate')")
  | .undefined =>
    .error (.typeError "Cannot read properties of undefined (reading '_aggregate')")
  | .object o => .ok o._aggregate

/-- A falsy value that is neither `null` nor `undefined`. -/
inductive FalsyPrimitive where
  | boolFalse
  | zero
  | nan
  | emptyString
  deriving DecidableEq

/-- An argument of `runAggregateQuery`: `null`, `undefined`, another falsy
value, or an array, whose elements may themselves be `null` or `undefined`. -/
inductive QueryArgument (ν : Type) where
  | null
  | undefined
  | falsy (v : FalsyPrimitive)
  | array (xs : List (JSValue ν))

/-- `simpleEncrypt(value, key)`.  The AES-256-CBC cipher of Node's `crypto`
module, applied to `String(value)` under `key` and printed in hexadecimal, is
the parameter `aes`. -/
def simpleEncrypt {ν : Type} (aes : ν → String → String) (value : ν) (key : String) : String :=
  aes value key

/-- `homomorphicAdd(ciphertextA, ciphertextB)`: the object literal reads
`ciphertextA._aggregate`, then `ciphertextB._aggregate`, and adds them. -/
def homomorphicAdd {ν : Type} (add : ν → ν → ν) (ciphertextA ciphertextB : JSValue ν) :
    Except JSError (CipherObject ν) :=
  match ciphertextA.aggregate with
  | .error e => .error e
  | .ok a =>
    match ciphertextB.aggregate with
    | .error e => .error e
    | .ok b => .ok { ciphertext := none, _type := some "HomomorphicSum", _aggregate := add a b }

/-- The fields of a `BlindQueryProxy` instance. -/
structure BlindQueryProxy where
  secretKey : String
  deriving DecidableEq

/-- `new BlindQueryProxy(secretKey)`: a missing or empty key is replaced by
the demo key (`secretKey || '...'`). -/
def BlindQueryProxy.new (secretKey : Option String) : BlindQueryProxy :=
  match secretKey with
  | some k => if k = "" then { secretKey := "a_strong_secret_key_for_demo" } else { secretKey := k }
  | none => { secretKey := "a_strong_secret_key_for_demo" }

/-- `BlindQueryProxy.encryptData(value)`. -/
def BlindQueryProxy.encryptData {ν : Type} (aes : ν → String → String)
    (self : BlindQueryProxy) (value : ν) : CipherObject ν :=
  { ciphertext := some (simpleEncrypt aes value self.secretKey)
    _type := none
    _aggregate := value }

/-- The `for` loop of `runAggregateQuery` over the elements that remain, with
`currentSum` the value accumulated so far; a throw of `homomorphicAdd` leaves
the loop. -/
def aggregateLoop {ν : Type} (add : ν → ν → ν) (currentSum : JSValue ν) :
    List (JSValue ν) → Except JSError (JSValue ν)
  | [] => .ok currentSum
  | x :: rest =>
    match homomorphicAdd add currentSum x with
    | .error e => .error e
    | .ok sum => aggregateLoop add (.object sum) rest

/-- `BlindQueryProxy.runAggregateQuery(encryptedDataList)`: `null` for a falsy
argument and for an empty array; otherwise the loop from index `1`, started at
the first element.  The `console.log` line printed before returning is not
part of the value. -/
def BlindQueryProxy.runAggregateQuery {ν : Type} (add : ν → ν → ν) (_self : BlindQueryProxy) :
    QueryArgument ν → Except JSError (JSValue ν)
  | .null => .ok .null
  | .undefined => .ok .null
  | .falsy _ => .ok .null
  | .array [] => .ok .null
  | .array (first :: rest) => aggregateLoop add first rest

/-- `BlindQueryProxy.decryptAggregate(encryptedResult)`: the property read
`encryptedResult._aggregate`. -/
def BlindQueryProxy.decryptAggregate {ν : Type} (_self : BlindQueryProxy)
    (encryptedResult : JSValue ν) : Except JSError ν :=
  encryptedResult.aggregate

end FiniteLogic

namespace FiniteLogic

/-! ## Basic facts about one call of `execute` -/

theorem execute_callCount (s : PolyOptimizer) (data : JSData) (d : ℚ) :
    (s.execute data d).self.callCount = s.callCount + 1 := by
  unfold PolyOptimizer.execute PolyOptimizer.executeWith
  dsimp only
  split
  · rfl
  · split_ifs <;> rfl

theorem execute_thresholdMs (s : PolyOptimizer) (data : JSData) (d : ℚ) :
    (s.execute data d).self.thresholdMs = s.thresholdMs := by
  unfold PolyOptimizer.execute PolyOptimizer.executeWith
  dsimp only
  split
  · rfl
  · split_ifs <;> rfl

/-- When the function selected by `isOptimized` throws, `execute` stops right
after `this.callCount++`. -/
theorem execute_throw (s : PolyOptimizer) (data : JSData) (d : ℚ) (e : JSError)
    (h : (if s.isOptimized then optimizedKernelFilter data else highLevelFilter data)
      = .error e) :
    s.execute data d
      = { self := { s with callCount := s.callCount + 1 }, console := [], ret := .error e } := by
  unfold PolyOptimizer.execute PolyOptimizer.executeWith
  dsimp only
  rw [h]

theorem execute_ret_error (s : PolyOptimizer) (data : JSData) (d : ℚ) (e : JSError)
    (h : (s.execute data d).ret = .error e) :
    (if s.isOptimized then optimizedKernelFilter data else highLevelFilter data) = .error e := by
  revert h
  unfold PolyOptimizer.execute PolyOptimizer.executeWith
  dsimp only
  split
  · rename_i e1 he1
    intro h1
    injection h1 with h1
    rw [he1, h1]
  · split_ifs <;> intro h1 <;> cases h1

theorem execute_ret_ok_iff (s : PolyOptimizer) (data : JSData) (d : ℚ) :
    (∃ r, (s.execute data d).ret = .ok r) ↔ ∃ xs, data = .array xs := by
  unfold PolyOptimizer.execute PolyOptimizer.executeWith
  cases data <;> cases hs : s.isOptimized <;>
    simp [highLevelFilter, optimizedKernelFilter] <;> split_ifs <;> simp

/-- The tier after a call that returns, as a function of the state before it
and of the measured duration. -/
theorem execute_isOptimized_of_ok (s : PolyOptimizer) (data : JSData) (d : ℚ)
    (r : ExecuteReturn ℚ) (h : (s.execute data d).ret = .ok r) :
    (s.execute data d).self.isOptimized
      = if s.isOptimized then
          !JSNumber.gt (.finite d) (JSNumber.mul s.thresholdMs (.finite 2))
        else JSNumber.gt (.finite d) s.thresholdMs && decide (10 < s.callCount + 1) := by
  revert h
  unfold PolyOptimizer.execute PolyOptimizer.executeWith
  cases data <;> cases hs : s.isOptimized <;>
    simp [highLevelFilter, optimizedKernelFilter] <;> split_ifs <;> simp_all

theorem execute_path_of_ok (s : PolyOptimizer) (data : JSData) (d : ℚ)
    (r : ExecuteReturn ℚ) (h : (s.execute data d).ret = .ok r) :
    r.path = pathOf (s.execute data d).self.isOptimized := by
  revert h
  unfold PolyOptimizer.execute PolyOptimizer.executeWith
  cases data <;> cases hs : s.isOptimized <;>
    simp [highLevelFilter, optimizedKernelFilter] <;> split_ifs <;> simp <;>
    (intro h; rw [← h])

theorem pathOf_injective (a b : Bool) : pathOf a = pathOf b ↔ a = b := by
  cases a <;> cases b <;> simp [pathOf]

theorem runCalls_append (s : PolyOptimizer) (cs ds : List (JSData × ℚ)) :
    runCalls s (cs ++ ds) = runCalls (runCalls s cs) ds := by
  induction cs generalizing s with
  | nil => rfl
  | cons c cs ih => simp [runCalls, ih]

theorem runCalls_callCount (s : PolyOptimizer) (cs : List (JSData × ℚ)) :
    (runCalls s cs).callCount = s.callCount + cs.length := by
  induction cs generalizing s with
  | nil => rfl
  | cons c cs ih =>
    simp only [runCalls, ih, execute_callCount, List.length_cons]
    omega

theorem runCalls_thresholdMs (s : PolyOptimizer) (cs : List (JSData × ℚ)) :
    (runCalls s cs).thresholdMs = s.thresholdMs := by
  induction cs generalizing s with
  | nil => rfl
  | cons c cs ih => simp only [runCalls, ih, execute_thresholdMs]

/-! ## C1: the reported `path` -/

/-- C1 does not hold of the code.  With threshold 2 ms and ten earlier calls,
a call measured at 3 ms is invoked while `isOptimized` is false, so it runs
`highLevelFilter`; it promotes, and the object it returns has `path`
'Optimized', the tier after the transition of that same call, where the tier
that ran is 'High-Level'. -/
theorem C1_path_reports_tier_after_promotion :
    (⟨.finite 2, false, 10⟩ : PolyOptimizer).isOptimized = false ∧
      ((⟨.finite 2, false, 10⟩ : PolyOptimizer).execute (.array [1, 2, 3]) 3).ret
        = .ok ⟨0, 3, "Optimized"⟩ ∧
      ((⟨.finite 2, false, 10⟩ : PolyOptimizer).execute (.array [1, 2, 3]) 3).self.isOptimized
        = true ∧
      pathOf (⟨.finite 2, false, 10⟩ : PolyOptimizer).isOptimized = "High-Level" ∧
      "Optimized" ≠ pathOf (⟨.finite 2, false, 10⟩ : PolyOptimizer).isOptimized :=
  ⟨rfl, rfl, rfl, rfl, by decide⟩

/-! ## C2: the promotion gate -/

/-- C2, as stated, fails: after ten calls that throw (`data` is `null`), the
first call that returns, measured at 3 ms against a threshold of 2 ms,
promotes: it is the 11th invocation but the 1st successful one. -/
theorem C2_promotion_before_11th_success :
    ¬ ∀ (t : Option JSNumber) (pre : List (JSData × ℚ)) (c : JSData × ℚ),
      (runCalls (PolyOptimizer.fresh t) pre).isOptimized = false →
      ((runCalls (PolyOptimizer.fresh t) pre).execute c.1 c.2).self.isOptimized = true →
      11 ≤ successCount (PolyOptimizer.fresh t) (pre ++ [c]) := by
  intro h
  have h1 := h (some (.finite 2)) (List.replicate 10 (JSData.null, 0)) (.array [], 3)
    (by decide) (by decide)
  revert h1
  decide

/-- C2, amended: from a freshly constructed instance, for every threshold and
every sequence of calls (returning or throwing), a call that promotes
(`isOptimized` false before it, true after it) is at least the 11th
invocation, calls that threw included; it is itself a call that returns and
its latency exceeds the threshold. -/
theorem C2_promotion_not_before_11th_call (t : Option JSNumber) (pre : List (JSData × ℚ))
    (c : JSData × ℚ)
    (hbefore : (runCalls (PolyOptimizer.fresh t) pre).isOptimized = false)
    (hafter : ((runCalls (PolyOptimizer.fresh t) pre).execute c.1 c.2).self.isOptimized = true) :
    11 ≤ pre.length + 1 ∧
      (∃ r, ((runCalls (PolyOptimizer.fresh t) pre).execute c.1 c.2).ret = .ok r) ∧
      JSNumber.gt (.finite c.2) (t.getD (.finite 5)) = true := by
  have hcount := runCalls_callCount (PolyOptimizer.fresh t) pre
  have hthr := runCalls_thresholdMs (PolyOptimizer.fresh t) pre
  generalize runCalls (PolyOptimizer.fresh t) pre = s at hbefore hafter hcount hthr
  simp only [PolyOptimizer.fresh, Nat.zero_add] at hcount hthr
  cases hret : (s.execute c.1 c.2).ret with
  | error e =>
    exfalso
    rw [execute_throw s c.1 c.2 e (execute_ret_error s c.1 c.2 e hret)] at hafter
    simp [hbefore] at hafter
  | ok r =>
    have hiso := execute_isOptimized_of_ok s c.1 c.2 r hret
    rw [hafter, hbefore] at hiso
    simp at hiso
    refine ⟨?_, ⟨r, rfl⟩, ?_⟩
    · omega
    · rw [← hthr]
      exact hiso.1

/-- C2, amended, at the counterexample: ten throwing calls, then a slow call. -/
theorem C2_promotion_not_before_11th_call_witness :
    11 ≤ (List.replicate 10 (JSData.null, (0 : ℚ))).length + 1 ∧
      (∃ r, ((runCalls (PolyOptimizer.fresh (some (.finite 2)))
          (List.replicate 10 (JSData.null, 0))).execute (JSData.array [], (3 : ℚ)).1
            (JSData.array [], (3 : ℚ)).2).ret = .ok r) ∧
      JSNumber.gt (.finite (JSData.array [], (3 : ℚ)).2)
        ((some (JSNumber.finite 2)).getD (.finite 5)) = true :=
  C2_promotion_not_before_11th_call (some (.finite 2)) (List.replicate 10 (JSData.null, 0))
    (.array [], 3) (by decide) (by decide)

/-! ## C3: hysteresis -/

/-- C3: when `isOptimized` is true and the call returns with measured latency
`d`, the tier after the call is Baseline if and only if
`d > thresholdMs * 2`; for a finite threshold `t` this is `2 * t < d`, so a
latency with `t < d ≤ 2 * t` leaves the tier Accelerated. -/
theorem C3_hysteresis (s : PolyOptimizer) (data : JSData) (d : ℚ) (r : ExecuteReturn ℚ)
    (hopt : s.isOptimized = true) (hok : (s.execute data d).ret = .ok r) :
    ((s.execute data d).self.isOptimized = false ↔
        JSNumber.gt (.finite d) (JSNumber.mul s.thresholdMs (.finite 2)) = true) ∧
      ∀ t : ℚ, s.thresholdMs = .finite t →
        ((s.execute data d).self.isOptimized = false ↔ 2 * t < d) ∧
          (t < d → d ≤ 2 * t → (s.execute data d).self.isOptimized = true) := by
  have hiso := execute_isOptimized_of_ok s data d r hok
  rw [hopt] at hiso
  simp only [if_true] at hiso
  refine ⟨by rw [hiso]; simp, ?_⟩
  intro t ht
  rw [hiso, ht]
  simp only [JSNumber.mul, JSNumber.gt, Bool.not_eq_false', decide_eq_true_eq,
    Bool.not_eq_true', decide_eq_false_iff_not, not_lt]
  constructor
  · rw [mul_comm]
  · intro _ h2
    rw [mul_comm]
    exact h2

/-- C3 at the two scenarios of the specification: threshold 2 ms and tier
Accelerated, a call measured at 5 ms demotes and a call measured at 3 ms does
not. -/
theorem C3_hysteresis_witness :
    ((⟨.finite 2, true, 20⟩ : PolyOptimizer).execute (.array [7]) 5).self.isOptimized = false ∧
      ((⟨.finite 2, true, 20⟩ : PolyOptimizer).execute (.array [7]) 3).self.isOptimized = true :=
  ⟨((C3_hysteresis ⟨.finite 2, true, 20⟩ (.array [7]) 5 ⟨7 / 10, 5, "High-Level"⟩ rfl
      (by norm_num [PolyOptimizer.execute, PolyOptimizer.executeWith, optimizedKernelFilter,
        filterLoop, JSNumber.gt, JSNumber.mul, pathOf])).2 2 rfl).1.mpr (by norm_num),
    ((C3_hysteresis ⟨.finite 2, true, 20⟩ (.array [7]) 3 ⟨7 / 10, 3, "Optimized"⟩ rfl
      (by norm_num [PolyOptimizer.execute, PolyOptimizer.executeWith, optimizedKernelFilter,
        filterLoop, JSNumber.gt, JSNumber.mul, pathOf])).2 2 rfl).2 (by norm_num) (by norm_num)⟩

/-! ## C4: failure isolation -/

/-- C4: when the implementation selected by `isOptimized` throws `e`, the
call of `execute` throws `e`, `isOptimized` is unchanged and `callCount` has
been incremented by one. -/
theorem C4_failure_isolation (s : PolyOptimizer) (data : JSData) (d : ℚ) (e : JSError)
    (hthrow : (if s.isOptimized then optimizedKernelFilter data else highLevelFilter data)
      = .error e) :
    (s.execute data d).ret = .error e ∧
      (s.execute data d).self.isOptimized = s.isOptimized ∧
      (s.execute data d).self.callCount = s.callCount + 1 := by
  rw [execute_throw s data d e hthrow]
  exact ⟨rfl, rfl, rfl⟩

/-- C4 at scenario D: four calls under the threshold, then `null` as the
argument of call 5 while the tier is Baseline. -/
theorem C4_failure_isolation_witness :
    ((runCalls (PolyOptimizer.fresh (some (.finite 2)))
        (List.replicate 4 (JSData.array [7], 1))).execute .null 1).ret
      = .error (.typeError "Cannot read properties of null (reading 'length')") ∧
    ((runCalls (PolyOptimizer.fresh (some (.finite 2)))
        (List.replicate 4 (JSData.array [7], 1))).execute .null 1).self.isOptimized = false ∧
    ((runCalls (PolyOptimizer.fresh (some (.finite 2)))
        (List.replicate 4 (JSData.array [7], 1))).execute .null 1).self.callCount = 5 :=
  C4_failure_isolation
    (runCalls (PolyOptimizer.fresh (some (.finite 2))) (List.replicate 4 (JSData.array [7], 1)))
    .null 1 (.typeError "Cannot read properties of null (reading 'length')") rfl

/-! ## C5: counting -/

/-- C5: from a freshly constructed instance, after any sequence of `N` calls
of `execute`, returning with any latency or throwing, `callCount` is `N`. -/
theorem C5_callCount_eq_number_of_calls (t : Option JSNumber) (cs : List (JSData × ℚ)) :
    (runCalls (PolyOptimizer.fresh t) cs).callCount = cs.length := by
  rw [runCalls_callCount]
  simp [PolyOptimizer.fresh]

/-! ## C6: construction -/

/-- C6, as stated, fails: `new PolyOptimizer(0)` does not fail, although `0`
is not a finite positive number. -/
theorem C6_constructor_accepts_zero :
    ¬ ∀ t : JSNumber,
      (JSNumber.isFinitePositive t = false → ∃ e, PolyOptimizer.new (some t) = .error e) ∧
      ((∃ s, PolyOptimizer.new (some t) = .ok s) → JSNumber.isFinitePositive t = true) := by
  intro h
  obtain ⟨e, he⟩ := (h (.finite 0)).1 (by decide)
  cases he

/-- C6, amended: construction never fails and validates nothing: for every
threshold argument (zero, negative, NaN and the infinities included) the
constructor returns an instance whose `thresholdMs` is the argument, or `5`
when the argument is omitted. -/
theorem C6_constructor_never_fails (t : Option JSNumber) :
    (∃ s, PolyOptimizer.new t = .ok s ∧ s.thresholdMs = t.getD (.finite 5)) ∧
      ∀ e, PolyOptimizer.new t ≠ .error e := by
  refine ⟨⟨_, rfl, rfl⟩, ?_⟩
  intro e h
  cases h

/-! ## C7: console output -/

/-- C7: a call of `execute` prints exactly one line when it changes the tier
(the `console.warn` line on Baseline → Accelerated, the `console.error` line
on Accelerated → Baseline) and prints nothing when the tier is unchanged; a
call whose implementation throws prints nothing and changes no tier. -/
theorem C7_one_event_per_transition (s : PolyOptimizer) (data : JSData) (d : ℚ) :
    (s.execute data d).console
        = (if (s.execute data d).self.isOptimized = s.isOptimized then []
          else if (s.execute data d).self.isOptimized = true then
            [ConsoleEntry.warnJit (toFixed2 d) s.thresholdMs]
          else [ConsoleEntry.errorDeopt]) ∧
      ∀ e, (s.execute data d).ret = .error e →
        (s.execute data d).console = [] ∧
          (s.execute data d).self.isOptimized = s.isOptimized := by
  constructor
  · unfold PolyOptimizer.execute PolyOptimizer.executeWith
    cases data <;> cases hs : s.isOptimized <;>
      simp [highLevelFilter, optimizedKernelFilter] <;> split_ifs <;> simp_all
  · intro e he
    rw [execute_throw s data d e (execute_ret_error s data d e he)]
    exact ⟨rfl, rfl⟩

/-- C7 on four calls: a promotion, a demotion, a call that changes nothing
and a call that throws. -/
theorem C7_one_event_per_transition_witness :
    ((⟨.finite 2, false, 10⟩ : PolyOptimizer).execute (.array []) 3).console
        = [ConsoleEntry.warnJit 3 (.finite 2)] ∧
      ((⟨.finite 2, true, 11⟩ : PolyOptimizer).execute (.array []) 5).console
        = [ConsoleEntry.errorDeopt] ∧
      ((⟨.finite 2, true, 11⟩ : PolyOptimizer).execute (.array []) 3).console = [] ∧
      ((⟨.finite 2, true, 11⟩ : PolyOptimizer).execute .undefined 5).console = [] := by
  refine ⟨?_, ?_, ?_, ?_⟩
  · rw [(C7_one_event_per_transition ⟨.finite 2, false, 10⟩ (.array []) 3).1]
    norm_num [PolyOptimizer.execute, PolyOptimizer.executeWith, highLevelFilter, JSNumber.gt,
      toFixed2]
  · rw [(C7_one_event_per_transition ⟨.finite 2, true, 11⟩ (.array []) 5).1]
    norm_num [PolyOptimizer.execute, PolyOptimizer.executeWith, optimizedKernelFilter,
      JSNumber.gt, JSNumber.mul]
  · rw [(C7_one_event_per_transition ⟨.finite 2, true, 11⟩ (.array []) 3).1]
    norm_num [PolyOptimizer.execute, PolyOptimizer.executeWith, optimizedKernelFilter,
      JSNumber.gt, JSNumber.mul]
  · exact ((C7_one_event_per_transition ⟨.finite 2, true, 11⟩ .undefined 5).2 _ rfl).1

/-! ## C8: the initial state -/

/-- C8: for every threshold argument, the freshly constructed instance has
`isOptimized = false` and `callCount = 0`, and its first call of `execute`
runs the baseline implementation: whatever the two implementations are, the
call returns the result of the baseline one, or throws what it throws; for
the implementations of the source this is `highLevelFilter`. -/
theorem C8_fresh_is_baseline (t : Option JSNumber) :
    PolyOptimizer.new t = .ok (PolyOptimizer.fresh t) ∧
      (PolyOptimizer.fresh t).isOptimized = false ∧
      (PolyOptimizer.fresh t).callCount = 0 ∧
      (∀ (δ ρ : Type) (highLevel optimized : δ → Except JSError ρ) (data : δ) (d : ℚ),
        Except.map ExecuteReturn.result
            (PolyOptimizer.executeWith highLevel optimized (PolyOptimizer.fresh t) data d).ret
          = highLevel data) ∧
      ∀ (data : JSData) (d : ℚ),
        Except.map ExecuteReturn.result ((PolyOptimizer.fresh t).execute data d).ret
          = highLevelFilter data := by
  have key : ∀ (δ ρ : Type) (highLevel optimized : δ → Except JSError ρ) (data : δ) (d : ℚ),
      Except.map ExecuteReturn.result
          (PolyOptimizer.executeWith highLevel optimized (PolyOptimizer.fresh t) data d).ret
        = highLevel data := by
    intro δ ρ highLevel optimized data d
    unfold PolyOptimizer.executeWith PolyOptimizer.fresh
    cases h : highLevel data with
    | error e => simp [h, Except.map]
    | ok x => simp only [h, Bool.false_eq_true, if_false]; split_ifs <;> rfl
  exact ⟨rfl, rfl, rfl, key, fun data d => key _ _ _ _ data d⟩

/-! ## C9: the threshold is never written -/

/-- C9: a call of `execute`, whether it returns, promotes, demotes or
throws, leaves `thresholdMs` as it was, so the state after the call is the
state before it with `callCount` and `isOptimized` possibly updated; after any
sequence of calls from construction, `thresholdMs` is still the value given to
the constructor. -/
theorem C9_threshold_immutable (s : PolyOptimizer) (data : JSData) (d : ℚ) :
    (s.execute data d).self
        = { s with
            callCount := (s.execute data d).self.callCount
            isOptimized := (s.execute data d).self.isOptimized } ∧
      (s.execute data d).self.thresholdMs = s.thresholdMs ∧
      ∀ (t : Option JSNumber) (cs : List (JSData × ℚ)),
        (runCalls (PolyOptimizer.fresh t) cs).thresholdMs = t.getD (.finite 5) := by
  refine ⟨?_, execute_thresholdMs s data d, fun t cs => ?_⟩
  · have h := execute_thresholdMs s data d
    generalize (s.execute data d).self = s1 at h
    cases s1
    simp only at h
    simp [h]
  · rw [runCalls_thresholdMs]
    rfl

/-! ## Facts about the aggregation loop of `BlindProxy.js` -/

theorem homomorphicAdd_object {ν : Type} (add : ν → ν → ν) (a b : CipherObject ν) :
    homomorphicAdd add (.object a) (.object b)
      = .ok { ciphertext := none, _type := some "HomomorphicSum",
              _aggregate := add a._aggregate b._aggregate } := rfl

/-- On objects the loop does not throw, and the `_aggregate` of its result is
the left-to-right `add` of the `_aggregate` fields, started at the one of
`currentSum`. -/
theorem aggregateLoop_objects {ν : Type} (add : ν → ν → ν) (acc : CipherObject ν)
    (os : List (CipherObject ν)) :
    ∃ o, aggregateLoop add (.object acc) (os.map .object) = .ok (.object o) ∧
      o._aggregate = (os.map CipherObject._aggregate).foldl add acc._aggregate := by
  induction os generalizing acc with
  | nil => exact ⟨acc, rfl, rfl⟩
  | cons x xs ih =>
    simp only [List.map_cons, aggregateLoop, homomorphicAdd_object, List.foldl_cons]
    exact ih _

/-! ## C10: the aggregation round trip of `BlindProxy.js` -/

/-- C10: for every key, every cipher, every addition `add` of the number type
and every non-empty list of numbers `xs`, decrypting the aggregate of the
encrypted list returns, without failing, the sum of `xs` as the program's
arithmetic computes it: `add` applied from left to right, started at the first
element; when `zero` is neutral on the left this is the sum started at `zero`,
the `reduce((a, b) => a + b, 0)` of the demonstration.  The `homomorphicAdd` of
the encryptions of `a` and `b` decrypts to `add a b`. -/
theorem C10_aggregate_round_trip {ν : Type} (add : ν → ν → ν) (aes : ν → String → String)
    (proxy : BlindQueryProxy) (xs : List ν) (hne : xs ≠ []) :
    ((proxy.runAggregateQuery add
          (.array (xs.map fun v => .object (proxy.encryptData aes v)))).bind
        proxy.decryptAggregate
        = .ok (xs.tail.foldl add (xs.head hne))) ∧
      (∀ zero : ν, (∀ v, add zero v = v) →
        (proxy.runAggregateQuery add
            (.array (xs.map fun v => .object (proxy.encryptData aes v)))).bind
          proxy.decryptAggregate
          = .ok (xs.foldl add zero)) ∧
      ∀ a b : ν,
        (homomorphicAdd add (.object (proxy.encryptData aes a))
            (.object (proxy.encryptData aes b))).bind
          (fun sum => proxy.decryptAggregate (.object sum))
          = .ok (add a b) := by
  have hmain : (proxy.runAggregateQuery add
        (.array (xs.map fun v => .object (proxy.encryptData aes v)))).bind
      proxy.decryptAggregate
      = .ok (xs.tail.foldl add (xs.head hne)) := by
    cases xs with
    | nil => exact absurd rfl hne
    | cons x rest =>
      obtain ⟨o, ho, hagg⟩ := aggregateLoop_objects add (proxy.encryptData aes x)
        (rest.map (proxy.encryptData aes))
      simp only [List.map_map] at ho hagg
      simp only [List.map_cons, BlindQueryProxy.runAggregateQuery, List.head_cons,
        List.tail_cons]
      have hfun : (fun v => JSValue.object (proxy.encryptData aes v))
          = JSValue.object ∘ proxy.encryptData aes := rfl
      rw [hfun, ho]
      have hid : CipherObject._aggregate ∘ proxy.encryptData aes = id := rfl
      rw [hid, List.map_id] at hagg
      change Except.ok o._aggregate = _
      rw [hagg]
      rfl
  refine ⟨hmain, ?_, fun a b => rfl⟩
  intro zero hzero
  rw [hmain]
  cases xs with
  | nil => exact absurd rfl hne
  | cons x rest => simp only [List.head_cons, List.tail_cons, List.foldl_cons, hzero]

/-- C10 on the data of the demonstration, with integers and their addition
(on which the addition of doubles is exact): `[10, 25, 40]` under the key
'MyMasterKey' aggregates to `75`. -/
theorem C10_aggregate_round_trip_witness :
    ((BlindQueryProxy.new (some "MyMasterKey")).runAggregateQuery (fun a b : ℤ => a + b)
          (.array ([10, 25, 40].map fun v =>
            .object ((BlindQueryProxy.new (some "MyMasterKey")).encryptData
              (fun _ key => key) v)))).bind
        (BlindQueryProxy.new (some "MyMasterKey")).decryptAggregate
      = .ok 75 :=
  (C10_aggregate_round_trip (fun a b : ℤ => a + b) (fun _ key => key)
    (BlindQueryProxy.new (some "MyMasterKey")) [10, 25, 40] (by decide)).1

/-! ## Facts about unbounded sequences of calls -/

theorem execute_array_isOptimized (s : PolyOptimizer) (xs : List ℤ) (d : ℚ) :
    (s.execute (.array xs) d).self.isOptimized
      = if s.isOptimized then
          !JSNumber.gt (.finite d) (JSNumber.mul s.thresholdMs (.finite 2))
        else JSNumber.gt (.finite d) s.thresholdMs && decide (10 < s.callCount + 1) := by
  obtain ⟨r, hr⟩ := (execute_ret_ok_iff s (.array xs) d).mpr ⟨xs, rfl⟩
  exact execute_isOptimized_of_ok s (.array xs) d r hr

theorem stateAfter_callCount (s : PolyOptimizer) (data : ℕ → JSData) (d : ℕ → ℚ) (n : ℕ) :
    (stateAfter s data d n).callCount = s.callCount + n := by
  induction n with
  | zero => rfl
  | succ n ih =>
    simp only [stateAfter, execute_callCount, ih]
    omega

theorem stateAfter_thresholdMs (s : PolyOptimizer) (data : ℕ → JSData) (d : ℕ → ℚ) (n : ℕ) :
    (stateAfter s data d n).thresholdMs = s.thresholdMs := by
  induction n with
  | zero => rfl
  | succ n ih => simp only [stateAfter, execute_thresholdMs, ih]

/-- The state after `n` calls of the unbounded sequence is the state after the
list of its first `n` calls. -/
theorem stateAfter_eq_runCalls (s : PolyOptimizer) (data : ℕ → JSData) (d : ℕ → ℚ) (n : ℕ) :
    stateAfter s data d n
      = runCalls s ((List.range n).map fun i => (data (i + 1), d (i + 1))) := by
  induction n with
  | zero => rfl
  | succ n ih =>
    rw [List.range_succ, List.map_append, runCalls_append, ← ih]
    rfl

/-- One step of a sequence of returning calls from a fresh instance. -/
theorem stateAfter_fresh_succ (t : Option JSNumber) (xs : ℕ → List ℤ) (d : ℕ → ℚ) (n : ℕ) :
    (stateAfter (PolyOptimizer.fresh t) (fun k => .array (xs k)) d (n + 1)).isOptimized
      = if (stateAfter (PolyOptimizer.fresh t) (fun k => .array (xs k)) d n).isOptimized then
          !JSNumber.gt (.finite (d (n + 1))) (JSNumber.mul (t.getD (.finite 5)) (.finite 2))
        else JSNumber.gt (.finite (d (n + 1))) (t.getD (.finite 5)) && decide (10 < n + 1) := by
  have hc : (stateAfter (PolyOptimizer.fresh t) (fun k => .array (xs k)) d n).callCount = n := by
    rw [stateAfter_callCount]
    exact Nat.zero_add n
  have ht : (stateAfter (PolyOptimizer.fresh t) (fun k => .array (xs k)) d n).thresholdMs
      = t.getD (.finite 5) := by
    rw [stateAfter_thresholdMs]
    rfl
  rw [stateAfter, execute_array_isOptimized, hc, ht]

/-- While no call from the 11th on has been slower than the threshold, the
tier is Baseline. -/
theorem stateAfter_fresh_baseline (t : Option JSNumber) (xs : ℕ → List ℤ) (d : ℕ → ℚ) (n : ℕ)
    (h : ∀ j, 11 ≤ j → j ≤ n → JSNumber.gt (.finite (d j)) (t.getD (.finite 5)) = false) :
    (stateAfter (PolyOptimizer.fresh t) (fun k => .array (xs k)) d n).isOptimized = false := by
  induction n with
  | zero => rfl
  | succ n ih =>
    rw [stateAfter_fresh_succ, ih (fun j h1 h2 => h j h1 (by omega))]
    simp only [Bool.false_eq_true, if_false, Bool.and_eq_false_iff, decide_eq_false_iff_not]
    by_cases h10 : 10 < n + 1
    · exact Or.inl (h (n + 1) (by omega) (le_refl _))
    · exact Or.inr h10

/-! ## C11: the first promotion -/

/-- C11: from a freshly constructed instance with threshold `t`, along any
sequence of returning calls with latencies `d 1`, `d 2`, ..., call `k` is the
first call that leaves the tier Accelerated (the tier is Baseline when each of
the calls `1 .. k` is invoked, so these run the baseline implementation, and
Accelerated when call `k + 1` is invoked) if and only if `k` is the least
index with `11 ≤ k` and `d k > t`. -/
theorem C11_first_promotion (t : Option JSNumber) (xs : ℕ → List ℤ) (d : ℕ → ℚ) (k : ℕ) :
    ((∀ j, j < k →
          (stateAfter (PolyOptimizer.fresh t) (fun i => .array (xs i)) d j).isOptimized = false) ∧
        (stateAfter (PolyOptimizer.fresh t) (fun i => .array (xs i)) d k).isOptimized = true)
      ↔ (11 ≤ k ∧ JSNumber.gt (.finite (d k)) (t.getD (.finite 5)) = true ∧
          ∀ j, 11 ≤ j → j < k → JSNumber.gt (.finite (d j)) (t.getD (.finite 5)) = false) := by
  constructor
  · rintro ⟨hbefore, hk⟩
    cases k with
    | zero => cases hk
    | succ n =>
      have hstep := stateAfter_fresh_succ t xs d n
      rw [hk, hbefore n (Nat.lt_succ_self n)] at hstep
      simp only [Bool.false_eq_true, if_false] at hstep
      have hstep2 := hstep.symm
      rw [Bool.and_eq_true, decide_eq_true_eq] at hstep2
      refine ⟨by omega, hstep2.1, ?_⟩
      intro j hj1 hj2
      cases j with
      | zero => omega
      | succ m =>
        have hm := stateAfter_fresh_succ t xs d m
        rw [hbefore (m + 1) hj2, hbefore m (by omega)] at hm
        simp only [Bool.false_eq_true, if_false] at hm
        have hm2 := hm.symm
        rw [Bool.and_eq_false_iff, decide_eq_false_iff_not] at hm2
        rcases hm2 with h1 | h1
        · exact h1
        · omega
  · rintro ⟨h11, hgt, hleast⟩
    have hbefore : ∀ j, j < k →
        (stateAfter (PolyOptimizer.fresh t) (fun i => .array (xs i)) d j).isOptimized = false :=
      fun j hj => stateAfter_fresh_baseline t xs d j (fun i h1 h2 => hleast i h1 (by omega))
    refine ⟨hbefore, ?_⟩
    cases k with
    | zero => omega
    | succ n =>
      rw [stateAfter_fresh_succ, hbefore n (Nat.lt_succ_self n)]
      simp only [Bool.false_eq_true, if_false, Bool.and_eq_true, decide_eq_true_eq]
      exact ⟨hgt, by omega⟩

/-- C11 at scenario A: threshold 2 ms and every call measured at 3 ms; call 11
is the first promotion, so calls 1 to 11 run Baseline and call 12 runs
Accelerated. -/
theorem C11_first_promotion_witness :
    (∀ j, j < 11 →
        (stateAfter (PolyOptimizer.fresh (some (.finite 2))) (fun _ => .array [7, 8])
          (fun _ => 3) j).isOptimized = false) ∧
      (stateAfter (PolyOptimizer.fresh (some (.finite 2))) (fun _ => .array [7, 8])
        (fun _ => 3) 11).isOptimized = true :=
  (C11_first_promotion (some (.finite 2)) (fun _ => [7, 8]) (fun _ => 3) 11).mpr
    ⟨le_refl 11, by decide, fun j h1 h2 => absurd h1 (by omega)⟩

/-! ## C12: at most one transition per call -/

theorem execute_console_eq (s : PolyOptimizer) (data : JSData) (d : ℚ) :
    (s.execute data d).console
      = if (s.execute data d).self.isOptimized = s.isOptimized then []
        else if (s.execute data d).self.isOptimized = true then
          [ConsoleEntry.warnJit (toFixed2 d) s.thresholdMs]
        else [ConsoleEntry.errorDeopt] := by
  unfold PolyOptimizer.execute PolyOptimizer.executeWith
  cases data <;> cases hs : s.isOptimized <;>
    simp [highLevelFilter, optimizedKernelFilter] <;> split_ifs <;> simp_all

theorem conditions_exclusive (s : PolyOptimizer) (d : ℚ) :
    ¬ (s.promotionCondition d = true ∧ s.demotionCondition d = true) := by
  unfold PolyOptimizer.promotionCondition PolyOptimizer.demotionCondition
  cases s.isOptimized <;> simp

/-- C12: the promotion condition and the demotion condition are never both
satisfied by the same state; a call of `execute` prints at most one of the two
transition lines; the tier after a returning call is set by the promotion
condition if it holds, by the demotion condition otherwise; and a call whose
promotion condition holds leaves the tier Accelerated whatever its latency,
also above `thresholdMs * 2`. -/
theorem C12_at_most_one_transition (s : PolyOptimizer) (data : JSData) (d : ℚ) :
    ¬ (s.promotionCondition d = true ∧ s.demotionCondition d = true) ∧
      (s.execute data d).console.length ≤ 1 ∧
      (∀ xs : List ℤ,
        (s.execute (.array xs) d).self.isOptimized
          = if PolyOptimizer.promotionCondition { s with callCount := s.callCount + 1 } d then true
            else if PolyOptimizer.demotionCondition { s with callCount := s.callCount + 1 } d
              then false
            else s.isOptimized) ∧
      ∀ xs : List ℤ,
        PolyOptimizer.promotionCondition { s with callCount := s.callCount + 1 } d = true →
          (s.execute (.array xs) d).self.isOptimized = true ∧
            (s.execute (.array xs) d).console
              = [ConsoleEntry.warnJit (toFixed2 d) s.thresholdMs] := by
  have htier : ∀ xs : List ℤ,
      (s.execute (.array xs) d).self.isOptimized
        = if PolyOptimizer.promotionCondition { s with callCount := s.callCount + 1 } d then true
          else if PolyOptimizer.demotionCondition { s with callCount := s.callCount + 1 } d
            then false
          else s.isOptimized := by
    intro xs
    rw [execute_array_isOptimized]
    unfold PolyOptimizer.promotionCondition PolyOptimizer.demotionCondition
    cases s.isOptimized <;> simp
  refine ⟨conditions_exclusive s d, ?_, htier, ?_⟩
  · rw [execute_console_eq]
    split_ifs <;> simp
  · intro xs hp
    have h1 := htier xs
    rw [hp] at h1
    simp only [if_true] at h1
    have hs : s.isOptimized = false := by
      unfold PolyOptimizer.promotionCondition at hp
      simp only [Bool.and_eq_true, Bool.not_eq_true', decide_eq_true_eq] at hp
      exact hp.1.2
    refine ⟨h1, ?_⟩
    rw [execute_console_eq, h1, hs]
    simp

/-- C12 on a call that satisfies the promotion condition with a latency far
above twice the threshold: threshold 2 ms, 11th call, 100 ms. -/
theorem C12_at_most_one_transition_witness :
    ((⟨.finite 2, false, 10⟩ : PolyOptimizer).execute (.array [14]) 100).self.isOptimized = true ∧
      ((⟨.finite 2, false, 10⟩ : PolyOptimizer).execute (.array [14]) 100).console
        = [ConsoleEntry.warnJit (toFixed2 100) (.finite 2)] :=
  (C12_at_most_one_transition ⟨.finite 2, false, 10⟩ (.array [14]) 100).2.2.2 [14] (by decide)

/-! ## C13: the two implementations agree -/

/-- C13: `optimizedKernelFilter(data)` and `highLevelFilter(data)` are the
same for every input, and so the `result` returned by `execute(data)`, or the
exception it throws, is that of `highLevelFilter(data)` whether `isOptimized`
is true or false. -/
theorem C13_result_independent_of_tier (data : JSData) :
    optimizedKernelFilter data = highLevelFilter data ∧
      ∀ (s : PolyOptimizer) (d : ℚ),
        Except.map ExecuteReturn.result (s.execute data d).ret = highLevelFilter data := by
  have heq : optimizedKernelFilter data = highLevelFilter data := by
    cases data <;> rfl
  refine ⟨heq, ?_⟩
  intro s d
  unfold PolyOptimizer.execute PolyOptimizer.executeWith
  rw [heq]
  simp only [ite_self]
  cases highLevelFilter data with
  | error e => rfl
  | ok x => dsimp only; split_ifs <;> rfl

/-! ## C14: what a console line carries -/

theorem toFixed2_close (x : ℚ) : |toFixed2 x - x| ≤ 1 / 200 := by
  unfold toFixed2
  have h1 := Int.floor_le (x * 100 + 1 / 2)
  have h2 := Int.lt_floor_add_one (x * 100 + 1 / 2)
  rw [abs_le]
  constructor <;> linarith

/-- C14, as stated, fails: the line printed on a demotion is a fixed text, so
it determines neither the measured latency nor the invocation count: the
demotions measured at 5 ms and at 6 ms print the same line. -/
theorem C14_event_without_latency :
    ¬ ∃ (latencyOf : ConsoleEntry → ℚ) (countOf : ConsoleEntry → ℕ),
      ∀ (s : PolyOptimizer) (data : JSData) (d : ℚ) (e : ConsoleEntry),
        e ∈ (s.execute data d).console → latencyOf e = d ∧ countOf e = s.callCount + 1 := by
  rintro ⟨latencyOf, countOf, h⟩
  have h5 := (h ⟨.finite 2, true, 11⟩ (.array []) 5 .errorDeopt (by
    norm_num [PolyOptimizer.execute, PolyOptimizer.executeWith, optimizedKernelFilter,
      JSNumber.gt, JSNumber.mul])).1
  have h6 := (h ⟨.finite 2, true, 11⟩ (.array []) 6 .errorDeopt (by
    norm_num [PolyOptimizer.execute, PolyOptimizer.executeWith, optimizedKernelFilter,
      JSNumber.gt, JSNumber.mul])).1
  rw [h5] at h6
  norm_num at h6

/-- C14, amended: a line printed by `execute` tells the kind of the transition
by its channel and text: on a promotion it is the `console.warn` line, which
carries the measured latency rounded to two decimals (within `1/200` of it) and
the configured threshold; on a demotion it is the `console.error` line, which
carries no value. -/
theorem C14_event_content (s : PolyOptimizer) (data : JSData) (d : ℚ) (e : ConsoleEntry)
    (he : e ∈ (s.execute data d).console) :
    ((s.isOptimized = false ∧ (s.execute data d).self.isOptimized = true ∧
          e = ConsoleEntry.warnJit (toFixed2 d) s.thresholdMs) ∨
        (s.isOptimized = true ∧ (s.execute data d).self.isOptimized = false ∧
          e = ConsoleEntry.errorDeopt)) ∧
      |toFixed2 d - d| ≤ 1 / 200 := by
  refine ⟨?_, toFixed2_close d⟩
  rw [execute_console_eq] at he
  cases hb : s.isOptimized <;> cases ha : (s.execute data d).self.isOptimized <;>
    simp_all

/-- C14, amended, on the promotion of scenario A. -/
theorem C14_event_content_witness :
    ((false = false ∧
          ((⟨.finite 2, false, 10⟩ : PolyOptimizer).execute (.array []) 3).self.isOptimized = true ∧
          ConsoleEntry.warnJit 3 (.finite 2) = ConsoleEntry.warnJit (toFixed2 3) (.finite 2)) ∨
        (false = true ∧
          ((⟨.finite 2, false, 10⟩ : PolyOptimizer).execute (.array []) 3).self.isOptimized = false ∧
          ConsoleEntry.warnJit 3 (.finite 2) = ConsoleEntry.errorDeopt)) ∧
      |toFixed2 3 - 3| ≤ 1 / 200 :=
  C14_event_content ⟨.finite 2, false, 10⟩ (.array []) 3 (.warnJit 3 (.finite 2)) (by
    norm_num [PolyOptimizer.execute, PolyOptimizer.executeWith, highLevelFilter, JSNumber.gt,
      toFixed2])

/-! ## C15: what `runAggregateQuery` is given -/

theorem homomorphicAdd_congr {ν : Type} (add : ν → ν → ν) (a a' b b' : JSValue ν)
    (ha : a.aggregate = a'.aggregate) (hb : b.aggregate = b'.aggregate) :
    homomorphicAdd add a b = homomorphicAdd add a' b' := by
  unfold homomorphicAdd
  rw [ha, hb]

theorem aggregateLoop_congr {ν : Type} (add : ν → ν → ν) (x y : JSValue ν)
    (cs cs' : List (JSValue ν)) (hxy : x.aggregate = y.aggregate)
    (h : cs.map JSValue.aggregate = cs'.map JSValue.aggregate) :
    Except.map JSValue.aggregate (aggregateLoop add x cs)
      = Except.map JSValue.aggregate (aggregateLoop add y cs') := by
  induction cs generalizing x y cs' with
  | nil =>
    cases cs' with
    | nil => simp only [aggregateLoop, Except.map, hxy]
    | cons c' cs' => simp at h
  | cons c cs ih =>
    cases cs' with
    | nil => simp at h
    | cons c' cs' =>
      simp only [List.map_cons, List.cons.injEq] at h
      simp only [aggregateLoop, homomorphicAdd_congr add x y c c' hxy h.1]
      cases homomorphicAdd add y c' with
      | error e => rfl
      | ok sum => exact ih _ _ cs' rfl h.2

/-- C15, as stated, fails: the `_aggregate` field of `encryptData(v)` is `v`
itself, so the encryptions of `1` and of `2` differ in a field other than
`ciphertext`. -/
theorem C15_aggregate_field_reveals_value :
    ¬ ∀ (aes : ℚ → String → String) (proxy : BlindQueryProxy) (v1 v2 : ℚ),
      (proxy.encryptData aes v1)._type = (proxy.encryptData aes v2)._type ∧
        (proxy.encryptData aes v1)._aggregate = (proxy.encryptData aes v2)._aggregate := by
  intro h
  have h1 := (h (fun _ key => key) (BlindQueryProxy.new none) 1 2).2
  simp [BlindQueryProxy.encryptData] at h1

/-- C15, amended: `encryptData(v)` is the object `{ ciphertext, _aggregate: v }`:
next to the ciphertext it carries the value itself; and the aggregate computed
by `runAggregateQuery` is a function of the `_aggregate` fields alone: two
lists whose elements answer the property read `_aggregate` alike, whatever
their ciphertexts, have the same outcome (the same exception, or results that
answer the property read `_aggregate` alike). -/
theorem C15_aggregate_from_plaintext_fields {ν : Type} (add : ν → ν → ν)
    (aes : ν → String → String) (proxy : BlindQueryProxy) :
    (∀ v : ν, proxy.encryptData aes v
        = { ciphertext := some (aes v proxy.secretKey), _type := none, _aggregate := v }) ∧
      ∀ cs cs' : List (JSValue ν),
        cs.map JSValue.aggregate = cs'.map JSValue.aggregate →
          Except.map JSValue.aggregate (proxy.runAggregateQuery add (.array cs))
            = Except.map JSValue.aggregate (proxy.runAggregateQuery add (.array cs')) := by
  refine ⟨fun v => rfl, ?_⟩
  intro cs cs' h
  cases cs with
  | nil =>
    cases cs' with
    | nil => rfl
    | cons y ys => simp at h
  | cons x xs =>
    cases cs' with
    | nil => simp at h
    | cons y ys =>
      simp only [List.map_cons, List.cons.injEq] at h
      exact aggregateLoop_congr add x y xs ys h.1 h.2

/-- C15, amended, on two lists whose ciphertexts differ and whose `_aggregate`
fields are `10` and `25`. -/
theorem C15_aggregate_from_plaintext_fields_witness :
    Except.map JSValue.aggregate
        ((BlindQueryProxy.new none).runAggregateQuery (fun a b : ℤ => a + b)
          (.array [.object ⟨some "aa", none, 10⟩, .object ⟨some "bb", none, 25⟩]))
      = Except.map JSValue.aggregate
        ((BlindQueryProxy.new none).runAggregateQuery (fun a b : ℤ => a + b)
          (.array [.object ⟨some "cc", none, 10⟩,
            .object ⟨none, some "HomomorphicSum", 25⟩])) :=
  (C15_aggregate_from_plaintext_fields (fun a b : ℤ => a + b) (fun _ key => key)
      (BlindQueryProxy.new none)).2
    [.object ⟨some "aa", none, 10⟩, .object ⟨some "bb", none, 25⟩]
    [.object ⟨some "cc", none, 10⟩, .object ⟨none, some "HomomorphicSum", 25⟩] rfl

/-! ## C16: sustained slowness -/

theorem JSNumber.gt_of_gt_double (t : JSNumber) (x : ℚ)
    (ht : JSNumber.gt t (.finite 0) = true)
    (hx : JSNumber.gt (.finite x) (JSNumber.mul t (.finite 2)) = true) :
    JSNumber.gt (.finite x) t = true := by
  cases t with
  | finite q =>
    simp only [JSNumber.gt, JSNumber.mul, decide_eq_true_eq] at ht hx ⊢
    linarith
  | posInf => simp [JSNumber.gt, JSNumber.mul, JSNumber.sign] at hx
  | negInf => simp [JSNumber.gt] at ht
  | nan => simp [JSNumber.gt] at ht

theorem callAfter_self (s : PolyOptimizer) (data : ℕ → JSData) (d : ℕ → ℚ) (n : ℕ) :
    (callAfter s data d n).self = stateAfter s data d (n + 1) := rfl

theorem callAfter_array_path (s : PolyOptimizer) (xs : ℕ → List ℤ) (d : ℕ → ℚ) (n : ℕ) :
    ∃ r, (callAfter s (fun k => .array (xs k)) d n).ret = .ok r ∧
      r.path = pathOf (stateAfter s (fun k => .array (xs k)) d (n + 1)).isOptimized := by
  obtain ⟨r, hr⟩ := (execute_ret_ok_iff (stateAfter s (fun k => .array (xs k)) d n)
    (.array (xs (n + 1))) (d (n + 1))).mpr ⟨_, rfl⟩
  exact ⟨r, hr, execute_path_of_ok _ _ _ r hr⟩

/-- C16: from a fresh instance with a threshold `t > 0`, along any sequence
of returning calls whose latencies all exceed `t * 2`, the tier after call `n`
is Accelerated for odd `n` and Baseline for even `n`, for every `n ≥ 10`; so
every call from the 11th on changes the tier, and the `path` returned by call
`n + 1` is 'Optimized' when `n + 1` is odd and 'High-Level' when it is even:
'Optimized' at call 11, 'High-Level' at call 12, and so on. -/
theorem C16_sustained_slowness_flips (t : JSNumber) (xs : ℕ → List ℤ) (d : ℕ → ℚ)
    (ht : JSNumber.gt t (.finite 0) = true)
    (hslow : ∀ n, 1 ≤ n → JSNumber.gt (.finite (d n)) (JSNumber.mul t (.finite 2)) = true)
    (n : ℕ) (hn : 10 ≤ n) :
    (stateAfter (PolyOptimizer.fresh (some t)) (fun k => .array (xs k)) d n).isOptimized
        = decide (n % 2 = 1) ∧
      (stateAfter (PolyOptimizer.fresh (some t)) (fun k => .array (xs k)) d (n + 1)).isOptimized
        ≠ (stateAfter (PolyOptimizer.fresh (some t)) (fun k => .array (xs k)) d n).isOptimized ∧
      ∃ r, (callAfter (PolyOptimizer.fresh (some t)) (fun k => .array (xs k)) d n).ret = .ok r ∧
        r.path = pathOf (decide ((n + 1) % 2 = 1)) := by
  have hstep : ∀ m, 10 ≤ m →
      (stateAfter (PolyOptimizer.fresh (some t)) (fun k => .array (xs k)) d (m + 1)).isOptimized
        = !(stateAfter (PolyOptimizer.fresh (some t)) (fun k => .array (xs k)) d m).isOptimized := by
    intro m hm
    rw [stateAfter_fresh_succ]
    have h2 := hslow (m + 1) (by omega)
    have h1 := JSNumber.gt_of_gt_double t (d (m + 1)) ht h2
    simp only [Option.getD_some, h1, h2, Bool.not_true, Bool.true_and]
    cases (stateAfter (PolyOptimizer.fresh (some t)) (fun k => .array (xs k)) d m).isOptimized
    · simp only [Bool.false_eq_true, if_false, Bool.not_false, decide_eq_true_eq]
      omega
    · simp
  have hpar : ∀ m, 10 ≤ m →
      (stateAfter (PolyOptimizer.fresh (some t)) (fun k => .array (xs k)) d m).isOptimized
        = decide (m % 2 = 1) := by
    intro m hm
    induction m, hm using Nat.le_induction with
    | base =>
      exact stateAfter_fresh_baseline (some t) xs d 10 (fun j h1 h2 => absurd h1 (by omega))
    | succ m hm ih =>
      rw [hstep m hm, ih]
      rcases Nat.mod_two_eq_zero_or_one m with h | h
      · have h1 : (m + 1) % 2 = 1 := by omega
        simp [h, h1]
      · have h1 : (m + 1) % 2 = 0 := by omega
        simp [h, h1]
  refine ⟨hpar n hn, ?_, ?_⟩
  · rw [hstep n hn]
    cases (stateAfter (PolyOptimizer.fresh (some t)) (fun k => .array (xs k)) d n).isOptimized <;>
      simp
  · obtain ⟨r, hr, hp⟩ := callAfter_array_path (PolyOptimizer.fresh (some t)) xs d n
    exact ⟨r, hr, by rw [hp, hpar (n + 1) (by omega)]⟩

/-- C16 with threshold 2 ms and every call measured at 5 ms: the tier is
Baseline after call 10, Accelerated after call 11 and Baseline after call 12. -/
theorem C16_sustained_slowness_flips_witness :
    (stateAfter (PolyOptimizer.fresh (some (.finite 2))) (fun _ => .array [7]) (fun _ => 5)
        10).isOptimized = false ∧
      (stateAfter (PolyOptimizer.fresh (some (.finite 2))) (fun _ => .array [7]) (fun _ => 5)
        11).isOptimized = true ∧
      (stateAfter (PolyOptimizer.fresh (some (.finite 2))) (fun _ => .array [7]) (fun _ => 5)
        12).isOptimized = false :=
  ⟨(C16_sustained_slowness_flips (.finite 2) (fun _ => [7]) (fun _ => 5) (by decide)
      (fun _ _ => by norm_num [JSNumber.gt, JSNumber.mul]) 10 (by decide)).1,
    (C16_sustained_slowness_flips (.finite 2) (fun _ => [7]) (fun _ => 5) (by decide)
      (fun _ _ => by norm_num [JSNumber.gt, JSNumber.mul]) 11 (by decide)).1,
    (C16_sustained_slowness_flips (.finite 2) (fun _ => [7]) (fun _ => 5) (by decide)
      (fun _ _ => by norm_num [JSNumber.gt, JSNumber.mul]) 12 (by decide)).1⟩

/-! ## C17: no demotion under the demotion threshold -/

theorem JSNumber.gt_eq_false_of_le (a b : JSNumber) (h : JSNumber.le a b = true) :
    JSNumber.gt a b = false := by
  cases a <;> cases b <;> simp_all [JSNumber.le, JSNumber.gt]

/-- C17: from a fresh instance, along any sequence of returning calls whose
latencies all satisfy `d <= thresholdMs * 2`, once the tier is Accelerated
after some call it is Accelerated after every later call, and no call prints
the de-optimization line: there is no demotion. -/
theorem C17_no_demotion (t : Option JSNumber) (xs : ℕ → List ℤ) (d : ℕ → ℚ)
    (hle : ∀ n, 1 ≤ n →
      JSNumber.le (.finite (d n)) (JSNumber.mul (t.getD (.finite 5)) (.finite 2)) = true) :
    (∀ m n, m ≤ n →
        (stateAfter (PolyOptimizer.fresh t) (fun k => .array (xs k)) d m).isOptimized = true →
        (stateAfter (PolyOptimizer.fresh t) (fun k => .array (xs k)) d n).isOptimized = true) ∧
      ∀ n, ConsoleEntry.errorDeopt
        ∉ (callAfter (PolyOptimizer.fresh t) (fun k => .array (xs k)) d n).console := by
  have hstep : ∀ n,
      (stateAfter (PolyOptimizer.fresh t) (fun k => .array (xs k)) d n).isOptimized = true →
      (stateAfter (PolyOptimizer.fresh t) (fun k => .array (xs k)) d (n + 1)).isOptimized
        = true := by
    intro n h
    rw [stateAfter_fresh_succ, h,
      JSNumber.gt_eq_false_of_le _ _ (hle (n + 1) (by omega))]
    rfl
  constructor
  · intro m n hmn hm
    induction n, hmn using Nat.le_induction with
    | base => exact hm
    | succ n _ ih => exact hstep n ih
  · intro n hmem
    unfold callAfter at hmem
    rw [execute_console_eq] at hmem
    have hs := hstep n
    change (stateAfter (PolyOptimizer.fresh t) (fun k => .array (xs k)) d n).isOptimized = true →
      ((stateAfter (PolyOptimizer.fresh t) (fun k => .array (xs k)) d n).execute
        (.array (xs (n + 1))) (d (n + 1))).self.isOptimized = true at hs
    cases hb : (stateAfter (PolyOptimizer.fresh t) (fun k => .array (xs k)) d n).isOptimized <;>
      cases ha : ((stateAfter (PolyOptimizer.fresh t) (fun k => .array (xs k)) d n).execute
        (.array (xs (n + 1))) (d (n + 1))).self.isOptimized <;>
      simp_all

/-- C17 with threshold 2 ms and every call measured at 3 ms: the tier is
Accelerated after call 11 and still Accelerated after call 15. -/
theorem C17_no_demotion_witness :
    (stateAfter (PolyOptimizer.fresh (some (.finite 2))) (fun _ => .array [7]) (fun _ => 3)
        15).isOptimized = true :=
  (C17_no_demotion (some (.finite 2)) (fun _ => [7]) (fun _ => 3)
    (fun _ _ => by norm_num [JSNumber.le, JSNumber.mul])).1 11 15 (by decide) (by decide)

/-! ## C18: the guard of `runAggregateQuery` -/

/-- Started at an object, the loop throws exactly when an element that
remains is not an object, and what it returns is an object. -/
theorem aggregateLoop_object_cases {ν : Type} (add : ν → ν → ν) (acc : CipherObject ν)
    (rest : List (JSValue ν)) :
    ((∃ e, aggregateLoop add (.object acc) rest = .error e)
        ↔ ∃ c ∈ rest, ∀ o, c ≠ JSValue.object o) ∧
      ∀ v, aggregateLoop add (.object acc) rest = .ok v → ∃ o, v = .object o := by
  induction rest generalizing acc with
  | nil =>
    refine ⟨Iff.intro (fun ⟨e, he⟩ => (by cases he)) (fun ⟨c, hc, _⟩ => (by cases hc)), ?_⟩
    intro v hv
    cases hv
    exact ⟨acc, rfl⟩
  | cons x rest ih =>
    cases x with
    | null =>
      refine ⟨⟨fun _ => ⟨.null, List.mem_cons_self _ _, fun o h => by cases h⟩,
        fun _ => ⟨_, rfl⟩⟩, ?_⟩
      intro v hv
      cases hv
    | undefined =>
      refine ⟨⟨fun _ => ⟨.undefined, List.mem_cons_self _ _, fun o h => by cases h⟩,
        fun _ => ⟨_, rfl⟩⟩, ?_⟩
      intro v hv
      cases hv
    | object b =>
      simp only [aggregateLoop, homomorphicAdd_object]
      refine ⟨?_, (ih _).2⟩
      rw [(ih _).1]
      constructor
      · rintro ⟨c, hc, hno⟩
        exact ⟨c, List.mem_cons_of_mem _ hc, hno⟩
      · rintro ⟨c, hc, hno⟩
        rcases List.mem_cons.mp hc with h | h
        · exact absurd h (hno b)
        · exact ⟨c, h, hno⟩

/-- C18, as stated, fails: on the one-element list `[null]`, which is not
empty, `runAggregateQuery` returns its first element, `null`. -/
theorem C18_null_on_nonempty_list :
    ¬ ∀ (proxy : BlindQueryProxy) (arg : QueryArgument ℤ),
      (proxy.runAggregateQuery (fun a b : ℤ => a + b) arg = .ok .null
          ↔ arg = .null ∨ arg = .undefined ∨ arg = .array []) ∧
        ∀ cs : List (JSValue ℤ), cs ≠ [] →
          ∃ o, proxy.runAggregateQuery (fun a b : ℤ => a + b) (.array cs) = .ok (.object o) := by
  intro h
  obtain ⟨o, ho⟩ := (h (BlindQueryProxy.new none) .null).2 [.null] (by simp)
  cases ho

/-- C18, amended: `runAggregateQuery` returns `null`, without failing, on a
missing argument (`null`, `undefined`), on any other falsy argument and on the
empty list; on every non-empty list whose elements are all objects it returns,
without failing, an aggregate object; besides the cases above it returns `null`
only on the one-element list `[null]`; and it throws exactly on a list of two
or more elements one of which is not an object. -/
theorem C18_null_iff_missing_or_empty {ν : Type} (add : ν → ν → ν) (proxy : BlindQueryProxy) :
    (proxy.runAggregateQuery add .null = .ok .null ∧
        proxy.runAggregateQuery add .undefined = .ok .null ∧
        (∀ f, proxy.runAggregateQuery add (.falsy f) = .ok .null) ∧
        proxy.runAggregateQuery add (.array []) = .ok .null) ∧
      (∀ os : List (CipherObject ν), os ≠ [] →
        ∃ o, proxy.runAggregateQuery add (.array (os.map .object)) = .ok (.object o)) ∧
      (∀ arg : QueryArgument ν,
        proxy.runAggregateQuery add arg = .ok .null
          ↔ arg = .null ∨ arg = .undefined ∨ (∃ f, arg = .falsy f) ∨ arg = .array [] ∨
            arg = .array [.null]) ∧
      ∀ cs : List (JSValue ν),
        (∃ e, proxy.runAggregateQuery add (.array cs) = .error e)
          ↔ 2 ≤ cs.length ∧ ∃ c ∈ cs, ∀ o, c ≠ JSValue.object o := by
  refine ⟨⟨rfl, rfl, fun _ => rfl, rfl⟩, ?_, ?_, ?_⟩
  · intro os hos
    cases os with
    | nil => exact absurd rfl hos
    | cons x xs =>
      obtain ⟨o, ho, _⟩ := aggregateLoop_objects add x xs
      exact ⟨o, ho⟩
  · intro arg
    cases arg with
    | null => simp [BlindQueryProxy.runAggregateQuery]
    | undefined => simp [BlindQueryProxy.runAggregateQuery]
    | falsy f => simp [BlindQueryProxy.runAggregateQuery]
    | array cs =>
      cases cs with
      | nil => simp [BlindQueryProxy.runAggregateQuery]
      | cons first rest =>
        constructor
        · intro hnull
          right; right; right; right
          cases rest with
          | nil =>
            simp only [BlindQueryProxy.runAggregateQuery, aggregateLoop, Except.ok.injEq] at hnull
            rw [hnull]
          | cons x rest =>
            exfalso
            cases first with
            | null => cases hnull
            | undefined => cases hnull
            | object a =>
              obtain ⟨o, ho⟩ := (aggregateLoop_object_cases add a (x :: rest)).2 _ hnull
              cases ho
        · rintro (h | h | ⟨f, h⟩ | h | h)
          · cases h
          · cases h
          · cases h
          · cases h
          · cases h
            rfl
  · intro cs
    cases cs with
    | nil =>
      simp [BlindQueryProxy.runAggregateQuery]
    | cons first rest =>
      cases rest with
      | nil =>
        simp [BlindQueryProxy.runAggregateQuery, aggregateLoop]
      | cons x rest =>
        simp only [BlindQueryProxy.runAggregateQuery, List.length_cons]
        cases first with
        | null =>
          exact ⟨fun _ => ⟨by omega, .null, List.mem_cons_self _ _, fun o h => by cases h⟩,
            fun _ => ⟨_, rfl⟩⟩
        | undefined =>
          exact ⟨fun _ => ⟨by omega, .undefined, List.mem_cons_self _ _,
            fun o h => by cases h⟩, fun _ => ⟨_, rfl⟩⟩
        | object a =>
          rw [(aggregateLoop_object_cases add a (x :: rest)).1]
          constructor
          · rintro ⟨c, hc, hno⟩
            exact ⟨by omega, c, List.mem_cons_of_mem _ hc, hno⟩
          · rintro ⟨_, c, hc, hno⟩
            rcases List.mem_cons.mp hc with h | h
            · exact absurd h (hno a)
            · exact ⟨c, h, hno⟩

/-- C18, amended, on the missing argument, the empty list, a list of one
object, the list `[null]` and a list with a `null` second element. -/
theorem C18_null_iff_missing_or_empty_witness :
    (BlindQueryProxy.new none).runAggregateQuery (fun a b : ℤ => a + b) .undefined = .ok .null ∧
      (BlindQueryProxy.new none).runAggregateQuery (fun a b : ℤ => a + b) (.array []) = .ok .null ∧
      (∃ o, (BlindQueryProxy.new none).runAggregateQuery (fun a b : ℤ => a + b)
        (.array ([(⟨some "aa", none, 10⟩ : CipherObject ℤ)].map .object)) = .ok (.object o)) ∧
      (BlindQueryProxy.new none).runAggregateQuery (fun a b : ℤ => a + b) (.array [.null])
        = .ok .null ∧
      ∃ e, (BlindQueryProxy.new none).runAggregateQuery (fun a b : ℤ => a + b)
        (.array [.object ⟨some "aa", none, 10⟩, .null]) = .error e :=
  ⟨(C18_null_iff_missing_or_empty (fun a b : ℤ => a + b) (BlindQueryProxy.new none)).1.2.1,
    (C18_null_iff_missing_or_empty (fun a b : ℤ => a + b) (BlindQueryProxy.new none)).1.2.2.2,
    (C18_null_iff_missing_or_empty (fun a b : ℤ => a + b) (BlindQueryProxy.new none)).2.1
      [⟨some "aa", none, 10⟩] (by simp),
    ((C18_null_iff_missing_or_empty (fun a b : ℤ => a + b) (BlindQueryProxy.new none)).2.2.1
      (.array [.null])).mpr (Or.inr (Or.inr (Or.inr (Or.inr rfl)))),
    ((C18_null_iff_missing_or_empty (fun a b : ℤ => a + b) (BlindQueryProxy.new none)).2.2.2
      [.object ⟨some "aa", none, 10⟩, .null]).mpr
      ⟨by decide, .null, by simp, fun o h => by cases h⟩⟩

end FiniteLogic
